import Mathlib

/-!
Shallow embedding of the hithere HTTP load generator (Go), covering the
RPS controller and worker pool (src/requester/requester.go), the script
engine entry point (src/script/script.go) and the requests module with its
nested form encoder (src/script/requests.go).

Go float64 arithmetic in the controller is modelled over the rationals;
the values exercised by the claims are small integers and halves, on which
binary floating point is exact. Go machine ints are modelled as Int.
-/

namespace Hithere

/-! ## requester/requester.go -/

/-- Helper max from the bottom of requester.go: returns the larger int. -/
def goMax (a b : Int) : Int := if a > b then a else b

/-- Models math.Ceil followed by the int conversion, for finite values. -/
def goCeil (q : ℚ) : Int := Int.ceil q

/-- Models math.Round followed by the int conversion: Go rounds half away
from zero. -/
def goRound (q : ℚ) : Int :=
  if q < 0 then -Int.floor (-q + 1/2) else Int.floor (q + 1/2)

/-- Constant dt = 5 from consoleReport. -/
def dtQ : ℚ := 5
/-- Constant Kp = 5 from consoleReport. -/
def kpQ : ℚ := 5
/-- Constant Ki = 3 from consoleReport. -/
def kiQ : ℚ := 3
/-- Constant Kd = 3 from consoleReport. -/
def kdQ : ℚ := 3

/-- State read by one tick of the consoleReport control loop: the two
rate-counter readings, the live worker count, the RPS target, and the PID
loop state carried between ticks. -/
structure TickInput where
  rate1s : ℚ
  rate5s : ℚ
  workers : Int
  rpsTarget : ℚ
  prevError : ℚ
  integral : ℚ

/-- Everything one tick of consoleReport computes, plus the number of
workers it spawns and the number of single-worker stop signals it sends. -/
structure TickOutput where
  rpsMeasured : ℚ
  workerGoal : Int
  err : ℚ
  integral : ℚ
  derivative : ℚ
  output : ℚ
  prevError : ℚ
  newWorkers : ℚ
  workerDiff : Int
  spawned : Int
  killed : Int

/-- One tick of the consoleReport control loop (requester.go:336-377),
translated line by line. The two branches on workerDiff contain only
commented-out statements in the source, so neither branch spawns a worker
nor sends on workerStopCh: spawned and killed are 0 on every tick. -/
def consoleReportTick (s : TickInput) : TickOutput :=
  let rpsA := s.rate1s / 2
  let rpsB := s.rate5s / 5
  let rpsMeasured := (rpsA + rpsB) / 2
  let workerGoalFloat := (s.workers : ℚ) * s.rpsTarget / rpsMeasured
  let workerGoal := goMax (goCeil workerGoalFloat) 1
  let err := (workerGoal : ℚ) - (s.workers : ℚ)
  let integral := s.integral + err * dtQ
  let derivative := (err - s.prevError) / dtQ
  let output := kpQ * err + kiQ * integral + kdQ * derivative
  let newWorkers := (s.workers : ℚ) * (1 + output / 100)
  let workerDiff := goRound newWorkers - s.workers
  { rpsMeasured := rpsMeasured
    workerGoal := workerGoal
    err := err
    integral := integral
    derivative := derivative
    output := output
    prevError := err
    newWorkers := newWorkers
    workerDiff := workerDiff
    spawned := 0
    killed := 0 }

/-- Calibration measurement from runRPS: one unit produced n requests in
the given number of seconds, so rpsMeasured = n / seconds. -/
def calibratedRps (n : Int) (seconds : ℚ) : ℚ := (n : ℚ) / seconds

/-- Initial worker count from runRPS (requester.go:306):
nWorkers = max(int(math.Ceil(rpsTarget / rpsMeasured)), 1). -/
def initialWorkers (rpsTarget : ℚ) (n : Int) (seconds : ℚ) : Int :=
  goMax (goCeil (rpsTarget / calibratedRps n seconds)) 1

/-- The spawn loop of runRPS (requester.go:310-312): one runRPSWorker call
per index i with 0 <= i < nWorkers. -/
def runRPSSpawns (rpsTarget : ℚ) (n : Int) (seconds : ℚ) : List Nat :=
  List.range (initialWorkers rpsTarget n seconds).toNat

/-- Worker-pool state in RPS mode: the atomic workerCount, whether Stop()
has filled stopCh, and how many unconsumed sends sit in workerStopCh. -/
structure PoolState where
  workerCount : Int
  stopRequested : Bool
  workerStopPending : Nat

/-- Transitions of the RPS worker pool, as the source allows them:
runRPSWorker increments the count when its goroutine starts; Stop() fills
stopCh; a worker exits (and decrements on its deferred decWorkerCount)
only after reading stopCh or workerStopCh. No transition sends on
workerStopCh: the only send in the source (consoleReport downscale) is
commented out. -/
inductive PoolStep : PoolState → PoolState → Prop where
  | spawn (s : PoolState) :
      PoolStep s { s with workerCount := s.workerCount + 1 }
  | requestStop (s : PoolState) :
      PoolStep s { s with stopRequested := true }
  | exitOnStop (s : PoolState) :
      s.stopRequested = true →
      PoolStep s { s with workerCount := s.workerCount - 1 }
  | exitOnShed (s : PoolState) :
      0 < s.workerStopPending →
      PoolStep s { s with workerCount := s.workerCount - 1,
                          workerStopPending := s.workerStopPending - 1 }

/-- Reachability of pool states through any number of steps. -/
def PoolReachable (init s : PoolState) : Prop :=
  Relation.ReflTransGen PoolStep init s

/-! ## src/script/script.go -/

/-- Script.Do (script.go:38-45). The named result nRequests is
zero-initialized by Go and never assigned in the body; the first result of
config.Main is discarded, and err is wrapped when main fails. -/
def scriptDo (mainErr : Option String) : Int × Option String :=
  let nRequests : Int := 0
  match mainErr with
  | some e => (nRequests, some ("main: " ++ e))
  | none => (nRequests, none)

/-! ## src/script/requests.go: script values

Starlark values as the requests module consumes them. Dict entries and
list elements keep insertion order, as starlark dicts and lists do. The
json.Marshaler and HasAttrs arms of the encoder dispatch concern value
kinds (application-defined marshalers, structs) that no claim exercises
and are not part of this value model; a Float carries its finiteness flag
and its %g rendering, because binary floating-point formatting is outside
the embedding. -/

mutual
inductive SValue where
  | null : SValue
  | bool (b : Bool) : SValue
  | int (n : Int) : SValue
  | float (finite : Bool) (rep : String) : SValue
  | str (s : String) : SValue
  | dict (entries : SEntries) : SValue
  | list (elems : SList) : SValue

inductive SEntries where
  | nil : SEntries
  | cons (key val : SValue) (rest : SEntries) : SEntries

inductive SList where
  | nil : SList
  | cons (hd : SValue) (tl : SList) : SList
end

/-- Single-entry dict builder, for stating the encoder scenarios. -/
def SValue.dict1 (k : String) (v : SValue) : SValue :=
  .dict (.cons (.str k) v .nil)

/-- Dict entries as a plain list of key/value pairs, in insertion order. -/
def SEntries.toList : SEntries → List (SValue × SValue)
  | .nil => []
  | .cons k v rest => (k, v) :: rest.toList

/-! Starlark String() rendering, used for non-string header keys and
values (requests.go falls back to kVal.String()). String escaping inside
the quoted form is elided; no claim renders a composite value. -/
mutual
def sRepr : SValue → String
  | .null => "None"
  | .bool b => if b then "True" else "False"
  | .int n => toString n
  | .float _ rep => rep
  | .str s => "\"" ++ s ++ "\""
  | .dict es => "\x7b" ++ sReprEntries es ++ "\x7d"
  | .list xs => "[" ++ sReprElems xs ++ "]"

def sReprEntries : SEntries → String
  | .nil => ""
  | .cons k v .nil => sRepr k ++ ": " ++ sRepr v
  | .cons k v rest => sRepr k ++ ": " ++ sRepr v ++ ", " ++ sReprEntries rest

def sReprElems : SList → String
  | .nil => ""
  | .cons x .nil => sRepr x
  | .cons x tl => sRepr x ++ ", " ++ sReprElems tl
end

/-! ## src/script/requests.go: nested form encoder (urlencodeBody) -/

/-- Uppercase hexadecimal digit, as Go "%X" formatting uses. -/
def hexDigit (n : Nat) : Char :=
  if n < 10 then Char.ofNat (48 + n) else Char.ofNat (55 + n)

/-- Go url.QueryEscape on a single byte: alphanumerics and - _ . ~ stay,
space becomes +, everything else percent-escapes. -/
def queryEscapeByte (b : Nat) : String :=
  if b = 32 then "+"
  else if (48 ≤ b ∧ b ≤ 57) ∨ (65 ≤ b ∧ b ≤ 90) ∨ (97 ≤ b ∧ b ≤ 122) ∨
      b = 45 ∨ b = 46 ∨ b = 95 ∨ b = 126 then
    String.mk [Char.ofNat b]
  else
    String.mk ['%', hexDigit (b / 16), hexDigit (b % 16)]

/-- Go url.QueryEscape over the UTF-8 bytes of a string. -/
def queryEscape (s : String) : String :=
  String.join (s.data.map fun c =>
    String.join ((String.utf8EncodeChar c).map fun b => queryEscapeByte b.toNat))

/-- Key escaping of stripe-go form.Values.Encode: url.QueryEscape with the
bracket bytes restored, so composite keys keep their literal brackets.
The stripe-go form package is an external dependency; its encoding is
modelled as pinned by this repository's own TestNestedSerialize, which
requires card[number]=4242424242424242 byte for byte. -/
def keyEscapeByte (b : Nat) : String :=
  if b = 91 then "[" else if b = 93 then "]" else queryEscapeByte b

/-- Escape one composite key for the encoded form body. -/
def keyEscape (s : String) : String :=
  String.join (s.data.map fun c =>
    String.join ((String.utf8EncodeChar c).map fun b => keyEscapeByte b.toNat))

/-- One key=value pair of the encoded body. -/
def encodePair (kv : String × String) : String :=
  keyEscape kv.1 ++ "=" ++ queryEscape kv.2

/-- form.Values.Encode over the pairs Add produced, in insertion order,
joined by ampersands. -/
def formEncode : List (String × String) → String
  | [] => ""
  | [kv] => encodePair kv
  | kv :: rest => encodePair kv ++ "&" ++ formEncode rest

/-- form.FormatKey of stripe-go: the first path component bare, each
further component wrapped in brackets. (stripe-go panics on an empty
parts slice; the encoder only reaches it with an empty path for a
top-level scalar, which no claim exercises.) -/
def formatKey (parts : List String) : String :=
  match parts with
  | [] => ""
  | p :: ps => ps.foldl (fun acc c => acc ++ "[" ++ c ++ "]") p

/-- Starlark Type() names, as the encoder's error messages use them. -/
def sTypeName : SValue → String
  | .null => "NoneType"
  | .bool _ => "bool"
  | .int _ => "int"
  | .float _ _ => "float"
  | .str _ => "string"
  | .dict _ => "dict"
  | .list _ => "list"

/-! The emit closure of urlencodeBody (requests.go:444-524), translated
case by case; it returns the key/value pairs the Go code Adds to the
form.Values, in order. -/
mutual
def emit : SValue → List String → Except String (List (String × String))
  | .null, kp => .ok [(formatKey kp, "null")]
  | .bool b, kp => .ok [(formatKey kp, if b then "true" else "false")]
  | .int n, kp => .ok [(formatKey kp, toString n)]
  | .float finite rep, kp =>
      if finite then .ok [(formatKey kp, rep)]
      else .error ("cannot encode non-finite float " ++ rep)
  | .str s, kp => .ok [(formatKey kp, s)]
  | .dict es, kp => emitEntries es kp
  | .list xs, kp => emitElems xs 0 kp

def emitEntries : SEntries → List String → Except String (List (String × String))
  | .nil, _ => .ok []
  | .cons k v rest, kp =>
      match k with
      | .str s =>
          match emit v (kp ++ [s]) with
          | .error e => .error ("in dict key \"" ++ s ++ "\": " ++ e)
          | .ok ps =>
              match emitEntries rest kp with
              | .error e => .error e
              | .ok qs => .ok (ps ++ qs)
      | k => .error ("dict has " ++ sTypeName k ++ " key, want string")

def emitElems : SList → Nat → List String → Except String (List (String × String))
  | .nil, _, _ => .ok []
  | .cons x tl, i, kp =>
      match emit x (kp ++ [toString i]) with
      | .error e => .error ("at list index " ++ toString i ++ ": " ++ e)
      | .ok ps =>
          match emitElems tl (i + 1) kp with
          | .error e => .error e
          | .ok qs => .ok (ps ++ qs)
end

/-- urlencodeBody (requests.go:439-530): run emit from an empty key path
and encode the collected pairs. -/
def urlencodeBody (v : SValue) : Except String String :=
  match emit v [] with
  | .error e => .error ("emit: " ++ e)
  | .ok pairs => .ok (formEncode pairs)

/-! ## src/script/requests.go: headers and the request builder -/

/-- Thread-locals of one script invocation (the scriptTls the engine puts
in the thread before calling main). Only the user agent, read through
tls.reporter.UserAgent(), shapes the constructed request; the context,
client, reporter and per-thread counter are opaque handles here. -/
structure ScriptTls where
  userAgent : String

/-- Valid header-field bytes of net/textproto: alphanumerics plus the
token punctuation set. -/
def isTokenChar (c : Char) : Bool :=
  c.isAlphanum ||
    [33, 35, 36, 37, 38, 39, 42, 43, 45, 46, 94, 95, 96, 124, 126].contains c.toNat

/-- Case step of textproto canonicalization: uppercase after a hyphen or
at the start, lowercase elsewhere. -/
def canonicalStep (c : Char) (upper : Bool) : Char :=
  if upper ∧ 97 ≤ c.toNat ∧ c.toNat ≤ 122 then Char.ofNat (c.toNat - 32)
  else if ¬ upper ∧ 65 ≤ c.toNat ∧ c.toNat ≤ 90 then Char.ofNat (c.toNat + 32)
  else c

/-- Walk of textproto canonicalization across the characters. -/
def canonicalChars : List Char → Bool → List Char
  | [], _ => []
  | c :: cs, upper => canonicalStep c upper :: canonicalChars cs (c = '-')

/-- textproto.CanonicalMIMEHeaderKey, as net/http Header.Set and Get apply
it: keys with invalid header bytes pass through unchanged, valid keys get
canonical casing. -/
def canonicalMIMEHeaderKey (s : String) : String :=
  if s.data.all isTokenChar then String.mk (canonicalChars s.data true) else s

/-- Header key string for one starlark key, per the loop in request():
GoString for strings, the String() rendering otherwise. -/
def headerKeyOf : SValue → String
  | .str s => s
  | v => sRepr v

/-- Header value string for one starlark value, same dispatch. -/
def headerValOf : SValue → String
  | .str s => s
  | v => sRepr v

/-- net/http Header.Set: replace all values of the canonicalized key by
the single given value. The header map is carried as an association list
keyed by canonical names. -/
def headerSet : List (String × String) → String → String → List (String × String)
  | [], k, v => [(canonicalMIMEHeaderKey k, v)]
  | (k0, v0) :: rest, k, v =>
      if k0 = canonicalMIMEHeaderKey k then (k0, v) :: rest
      else (k0, v0) :: headerSet rest k v

/-- net/http Header.Get: first value of the canonicalized key, or the
empty string when the key is absent. -/
def headerGet (h : List (String × String)) (k : String) : String :=
  match h with
  | [] => ""
  | (k0, v0) :: rest =>
      if k0 = canonicalMIMEHeaderKey k then v0 else headerGet rest k

/-- The header loop of request() (requests.go:330-349): one Header.Set per
dict entry, in dict order. -/
def buildHeaders : SEntries → List (String × String) → List (String × String)
  | .nil, h => h
  | .cons k v rest, h => buildHeaders rest (headerSet h (headerKeyOf k) (headerValOf v))

/-- Body of the outgoing request: GET has none, POST carries the raw
string or the form-encoded dict. -/
inductive BodyKind where
  | noBody : BodyKind
  | rawBody (s : String) : BodyKind
  | formBody (s : String) : BodyKind

/-- The http.Request as request() hands it to instrument(). -/
structure GoRequest where
  method : String
  url : String
  body : BodyKind
  headers : List (String × String)

/-- Keyword-argument pass of starlark.UnpackArgs for the parameter list
url, data, headers: each keyword fills its slot, a refilled slot or an
unknown name is an error. -/
def fillKwargs (fnname : String) :
    Option SValue × Option SValue × Option SValue → List (String × SValue) →
    Except String (Option SValue × Option SValue × Option SValue)
  | slots, [] => .ok slots
  | (u, d, h), (name, v) :: rest =>
      if name = "url" then
        match u with
        | some _ => .error (fnname ++ ": got multiple values for keyword argument url")
        | none => fillKwargs fnname (some v, d, h) rest
      else if name = "data" then
        match d with
        | some _ => .error (fnname ++ ": got multiple values for keyword argument data")
        | none => fillKwargs fnname (u, some v, h) rest
      else if name = "headers" then
        match h with
        | some _ => .error (fnname ++ ": got multiple values for keyword argument headers")
        | none => fillKwargs fnname (u, d, some v) rest
      else .error (fnname ++ ": unexpected keyword argument " ++ name)

/-- starlark.UnpackArgs for request(): the three parameters url, data and
headers carry no question-mark suffix, so all three are required; a
missing one is reported in declaration order. -/
def unpackArgs3 (fnname : String) (args : List SValue) (kwargs : List (String × SValue)) :
    Except String (SValue × SValue × SValue) :=
  if 3 < args.length then
    .error (fnname ++ ": got " ++ toString args.length ++ " arguments, want at most 3")
  else
    match fillKwargs fnname (args[0]?, args[1]?, args[2]?) kwargs with
    | .error e => .error e
    | .ok (none, _, _) => .error (fnname ++ ": missing argument for url")
    | .ok (some _, none, _) => .error (fnname ++ ": missing argument for data")
    | .ok (some _, some _, none) => .error (fnname ++ ": missing argument for headers")
    | .ok (some u, some d, some h) => .ok (u, d, h)

/-- Header construction tail of request(): the supplied headers in dict
order, then the content-type default for a form-encoded body when none was
set, then the unconditional user-agent injection. -/
def finalHeaders (urlenc : Bool) (hs : SEntries) (ua : String) : List (String × String) :=
  let h0 := buildHeaders hs []
  let h1 :=
    if urlenc = true ∧ headerGet h0 "content-type" = "" then
      headerSet h0 "content-type" "application/x-www-form-urlencoded"
    else h0
  headerSet h1 "user-agent" ua

/-- request() (requests.go:287-367) up to the instrument() call: the
thread-local check, argument unpacking, the POST body dispatch, the url
and headers type checks, and header construction. A returned GoRequest is
exactly what instrument() then issues; any error means no HTTP request is
made. http.NewRequestWithContext URL parse failures are outside this
embedding (every claim either fails earlier or conditions on reaching
construction). -/
def requestPrepare (method fnname : String) (tlsSlot : Option ScriptTls)
    (args : List SValue) (kwargs : List (String × SValue)) : Except String GoRequest :=
  match tlsSlot with
  | none => .error "requests can't be used at top level, only in function bodies"
  | some tls =>
    match unpackArgs3 fnname args kwargs with
    | .error e => .error ("UnpackArgs: " ++ e)
    | .ok (urlVal, dataVal, headersVal) =>
      let bodyStep : Except String (BodyKind × Bool) :=
        if method = "POST" then
          match dataVal with
          | .str s => .ok (.rawBody s, false)
          | .dict _ =>
              match urlencodeBody dataVal with
              | .error e => .error ("urlencodeBody: " ++ e)
              | .ok bs => .ok (.formBody bs, true)
          | _ => .error "expected a string or dict for data"
        else .ok (.noBody, false)
      match bodyStep with
      | .error e => .error e
      | .ok (body, isUrlEncodedBody) =>
        match urlVal with
        | .str u =>
          match headersVal with
          | .dict hs =>
              .ok { method := method, url := u, body := body,
                    headers := finalHeaders isUrlEncodedBody hs tls.userAgent }
          | _ => .error "expected a dict for headers"
        | _ => .error "expected url to be a string"

/-- fnRequestsGet: requests.get delegates to request() with method GET and
the builtin name requests.get. -/
def fnRequestsGet (tlsSlot : Option ScriptTls) (args : List SValue)
    (kwargs : List (String × SValue)) : Except String GoRequest :=
  requestPrepare "GET" "requests.get" tlsSlot args kwargs

/-- fnRequestsPost: requests.post delegates to request() with method POST
and the builtin name requests.post. -/
def fnRequestsPost (tlsSlot : Option ScriptTls) (args : List SValue)
    (kwargs : List (String × SValue)) : Except String GoRequest :=
  requestPrepare "POST" "requests.post" tlsSlot args kwargs

/-- Number of HTTP requests a request() call issues: instrument() runs
exactly once, after construction succeeds. -/
def requestsIssued : Except String GoRequest → Nat
  | .ok _ => 1
  | .error _ => 0

/-! ## src/script/requests.go: the script-visible Response -/

/-- The response value handed back to the script: the completed status
code, the request URL, and the fully buffered body. -/
structure Response where
  statusCode : Int
  url : String
  body : String

/-- response.Attr "ok" (requests.go:135-141): True iff status under 400. -/
def Response.okAttr (r : Response) : Bool :=
  if r.statusCode < 400 then true else false

/-- responseAttr.CallInternal for raise_for_status (requests.go:242-253):
an error for status 400 and above, starlark None otherwise. -/
def Response.raiseForStatus (r : Response) : Except String Unit :=
  if r.statusCode ≥ 400 then
    .error ("HTTP " ++ toString r.statusCode ++ " from " ++ r.url)
  else .ok ()

/-! ## Concrete states used by counterexamples and witnesses -/

/-- Tick state after warmup: counters reading 100 and 250 over their 2 s
and 5 s windows (50 rps), 10 live workers, a 100 rps target, fresh PID
state. -/
def tickSampleA : TickInput :=
  { rate1s := 100, rate5s := 250, workers := 10, rpsTarget := 100,
    prevError := 0, integral := 0 }

/-- The same tick state, for the control-formula witness. -/
def tickSampleB : TickInput :=
  { rate1s := 100, rate5s := 250, workers := 10, rpsTarget := 100,
    prevError := 0, integral := 0 }

/-- Headers dict carrying its own user-agent entry next to an ordinary
header. -/
def uaHeadersSample : SEntries :=
  .cons (.str "user-agent") (.str "custom")
    (.cons (.str "accept") (.str "application/json") .nil)

/-! ## Helper lemmas -/

/-- The Go max helper agrees with Int.max. -/
lemma goMax_eq_max (a b : Int) : goMax a b = max a b := by
  rw [max_def]; unfold goMax; split_ifs <;> omega

/-- One pool step preserves the invariant: no pending single-worker stop,
and before Stop() the worker count stays at or above its initial value. -/
lemma pool_invariant_step (n : Int) (t u : PoolState)
    (hinv : t.workerStopPending = 0 ∧ (t.stopRequested = false → n ≤ t.workerCount))
    (hstep : PoolStep t u) :
    u.workerStopPending = 0 ∧ (u.stopRequested = false → n ≤ u.workerCount) := by
  cases hstep with
  | spawn =>
      refine ⟨hinv.1, fun hs => ?_⟩
      have hs' : t.stopRequested = false := hs
      show n ≤ t.workerCount + 1
      have := hinv.2 hs'
      omega
  | requestStop =>
      refine ⟨hinv.1, fun hs => ?_⟩
      have hs' : true = false := hs
      cases hs'
  | exitOnStop hstop =>
      refine ⟨hinv.1, fun hs => ?_⟩
      have hs' : t.stopRequested = false := hs
      rw [hstop] at hs'
      cases hs'
  | exitOnShed hshed =>
      exact absurd hinv.1 (by omega)

/-- Inductive invariant of the RPS pool: no single-worker stop is ever
pending (the only send on workerStopCh is commented out), and until Stop()
fires the worker count never decreases below its initial value. -/
lemma pool_invariant (n : Int) (s : PoolState)
    (h : Relation.ReflTransGen PoolStep
      { workerCount := n, stopRequested := false, workerStopPending := 0 } s) :
    s.workerStopPending = 0 ∧ (s.stopRequested = false → n ≤ s.workerCount) := by
  induction h with
  | refl => exact ⟨rfl, fun _ => le_refl n⟩
  | tail _ hstep ih => exact pool_invariant_step n _ _ ih hstep

/-- Header.Get after Header.Set of the same key yields the set value. -/
lemma headerGet_headerSet_self (h : List (String × String)) (k v : String) :
    headerGet (headerSet h k v) k = v := by
  induction h with
  | nil => simp [headerSet, headerGet]
  | cons p rest ih =>
    obtain ⟨k0, v0⟩ := p
    by_cases hk : k0 = canonicalMIMEHeaderKey k
    · simp [headerSet, hk, headerGet]
    · simpa [headerSet, hk, headerGet] using ih

/-- Header.Set leaves the values of every other canonical key alone. -/
lemma headerGet_headerSet_ne (h : List (String × String)) (k kq v : String)
    (hne : canonicalMIMEHeaderKey kq ≠ canonicalMIMEHeaderKey k) :
    headerGet (headerSet h k v) kq = headerGet h kq := by
  have hne' : canonicalMIMEHeaderKey k ≠ canonicalMIMEHeaderKey kq := Ne.symm hne
  induction h with
  | nil => simp [headerSet, headerGet, hne']
  | cons p rest ih =>
    obtain ⟨k0, v0⟩ := p
    by_cases hk : k0 = canonicalMIMEHeaderKey k
    · have hk0 : k0 ≠ canonicalMIMEHeaderKey kq := by rw [hk]; exact hne'
      simp [headerSet, hk, headerGet, hne', hk0]
    · by_cases hq : k0 = canonicalMIMEHeaderKey kq
      · simp [headerSet, hk, headerGet, hq, hne]
      · simpa [headerSet, hk, headerGet, hq] using ih

/-- The header loop does not touch a canonical key none of its entries
carries. -/
lemma buildHeaders_get_skip (es : SEntries) (h : List (String × String)) (t : String)
    (hall : ∀ kv ∈ es.toList,
      canonicalMIMEHeaderKey (headerKeyOf kv.1) ≠ canonicalMIMEHeaderKey t) :
    headerGet (buildHeaders es h) t = headerGet h t :=
  match es with
  | .nil => rfl
  | .cons k v rest => by
      have hhead : canonicalMIMEHeaderKey (headerKeyOf k) ≠ canonicalMIMEHeaderKey t :=
        hall (k, v) (by simp [SEntries.toList])
      have hrest : ∀ kv ∈ rest.toList,
          canonicalMIMEHeaderKey (headerKeyOf kv.1) ≠ canonicalMIMEHeaderKey t :=
        fun kv hm => hall kv (by simp [SEntries.toList, hm])
      calc headerGet (buildHeaders rest (headerSet h (headerKeyOf k) (headerValOf v))) t
          = headerGet (headerSet h (headerKeyOf k) (headerValOf v)) t :=
            buildHeaders_get_skip rest _ t hrest
        _ = headerGet h t := headerGet_headerSet_ne h _ t _ (Ne.symm hhead)

/-- An entry of the headers dict whose canonical key is unique among the
entries survives the header loop with its given value. -/
lemma buildHeaders_get_mem (es : SEntries) (h : List (String × String)) (k v : SValue)
    (hmem : (k, v) ∈ es.toList)
    (hnodup : (es.toList.map fun kv =>
      canonicalMIMEHeaderKey (headerKeyOf kv.1)).Pairwise (fun a b => a ≠ b)) :
    headerGet (buildHeaders es h) (headerKeyOf k) = headerValOf v :=
  match es with
  | .nil => absurd hmem (by simp [SEntries.toList])
  | .cons k0 v0 rest => by
      have hmem' : (k, v) = (k0, v0) ∨ (k, v) ∈ rest.toList :=
        List.mem_cons.mp (show (k, v) ∈ (k0, v0) :: rest.toList from hmem)
      have hpw := List.pairwise_cons.mp
        (show (canonicalMIMEHeaderKey (headerKeyOf k0) ::
            rest.toList.map fun kv => canonicalMIMEHeaderKey (headerKeyOf kv.1)).Pairwise
            (fun a b => a ≠ b) from hnodup)
      rcases hmem' with heq | hin
      · have hk : k = k0 := congrArg Prod.fst heq
        have hv : v = v0 := congrArg Prod.snd heq
        subst hk
        subst hv
        have hall : ∀ kv ∈ rest.toList,
            canonicalMIMEHeaderKey (headerKeyOf kv.1) ≠
              canonicalMIMEHeaderKey (headerKeyOf k) := by
          intro kv hm
          have hb := hpw.1 (canonicalMIMEHeaderKey (headerKeyOf kv.1))
            (List.mem_map_of_mem _ hm)
          exact fun he => hb he.symm
        calc headerGet (buildHeaders rest (headerSet h (headerKeyOf k) (headerValOf v)))
              (headerKeyOf k)
            = headerGet (headerSet h (headerKeyOf k) (headerValOf v)) (headerKeyOf k) :=
              buildHeaders_get_skip rest _ _ hall
          _ = headerValOf v := headerGet_headerSet_self h _ _
      · exact buildHeaders_get_mem rest (headerSet h (headerKeyOf k0) (headerValOf v0))
          k v hin hpw.2

/-! ## Claims -/

/-- C1 counterexample: at a concrete post-warmup tick the computed worker
diff is 21, yet the pool spawns no workers — the spawn action the claim
describes is commented out in the source, so the diff is never applied. -/
theorem consoleReport_spawn_cex :
    1 < (consoleReportTick tickSampleA).workerDiff ∧
    (consoleReportTick tickSampleA).spawned = 0 ∧
    (consoleReportTick tickSampleA).spawned ≠ (consoleReportTick tickSampleA).workerDiff := by
  have hdiff : (consoleReportTick tickSampleA).workerDiff = 21 := by
    norm_num [consoleReportTick, tickSampleA, goRound, goCeil, goMax, dtQ, kpQ, kiQ, kdQ]
  refine ⟨by rw [hdiff]; norm_num, rfl, by rw [hdiff]; decide⟩

/-- C1 (amended): on every control-loop tick the worker diff and its
hysteresis branches are computed, but both branch bodies are commented
out, so no workers are spawned and no single-worker stops are enqueued,
whatever the diff; in particular nothing happens when the diff is at most
1 in magnitude. -/
theorem consoleReport_tick_no_action (s : TickInput) :
    (consoleReportTick s).spawned = 0 ∧ (consoleReportTick s).killed = 0 :=
  ⟨rfl, rfl⟩

/-- C2: Script.Do never returns 1 as its first component — the named
result nRequests is zero-initialized and never assigned, so every
invocation returns 0 whether or not main errored. -/
theorem scriptDo_first_component_zero :
    (∀ r, (scriptDo r).1 = 0) ∧ (scriptDo none).1 = 0 := by
  refine ⟨fun r => ?_, rfl⟩
  cases r <;> rfl

/-- C3: on each tick the measured RPS is the average of the normalized
counter readings, the worker goal is max(1, ceil(live workers times the
target over the measured rate)), and with 10 live workers, a measured 50
rps and a 100 rps target the goal is 20. -/
theorem consoleReport_goal_formula (s : TickInput) :
    (consoleReportTick s).rpsMeasured = (s.rate1s / 2 + s.rate5s / 5) / 2 ∧
    (consoleReportTick s).workerGoal =
      max 1 ⌈(s.workers : ℚ) * s.rpsTarget / ((s.rate1s / 2 + s.rate5s / 5) / 2)⌉ ∧
    (s.workers = 10 → s.rpsTarget = 100 → (consoleReportTick s).rpsMeasured = 50 →
      (consoleReportTick s).workerGoal = 20) := by
  refine ⟨rfl, ?_, ?_⟩
  · show goMax (goCeil ((s.workers : ℚ) * s.rpsTarget / ((s.rate1s / 2 + s.rate5s / 5) / 2))) 1
        = max 1 ⌈(s.workers : ℚ) * s.rpsTarget / ((s.rate1s / 2 + s.rate5s / 5) / 2)⌉
    rw [goMax_eq_max, goCeil]
    exact max_comm _ _
  · intro hw ht hm
    have hm' : (s.rate1s / 2 + s.rate5s / 5) / 2 = (50 : ℚ) := hm
    show goMax (goCeil ((s.workers : ℚ) * s.rpsTarget / ((s.rate1s / 2 + s.rate5s / 5) / 2))) 1
        = 20
    rw [hw, ht, hm']
    norm_num [goMax, goCeil]

/-- C3 witness: the tick formula applied at the sample state with 10
workers, 100 rps target and counters reading a measured 50 rps. -/
theorem consoleReport_goal_formula_w :
    (consoleReportTick tickSampleB).workerGoal = 20 :=
  (consoleReport_goal_formula tickSampleB).2.2 rfl rfl
    (by norm_num [consoleReportTick, tickSampleB])

/-- C4: calibration measures one unit as n requests in the given seconds,
and runRPS spawns exactly max(1, ceil(target over measured)) initial
workers; with a 10 rps calibrated unit and a 100 rps target that is 10
workers. -/
theorem runRPS_initial_worker_count (rpsTarget : ℚ) (n : Int) (seconds : ℚ) :
    initialWorkers rpsTarget n seconds = max 1 ⌈rpsTarget / ((n : ℚ) / seconds)⌉ ∧
    1 ≤ initialWorkers rpsTarget n seconds ∧
    (runRPSSpawns rpsTarget n seconds).length = (initialWorkers rpsTarget n seconds).toNat ∧
    (calibratedRps n seconds = 10 → rpsTarget = 100 →
      initialWorkers rpsTarget n seconds = 10) := by
  refine ⟨?_, ?_, ?_, ?_⟩
  · show goMax (goCeil (rpsTarget / calibratedRps n seconds)) 1 = _
    rw [goMax_eq_max, goCeil, calibratedRps]
    exact max_comm _ _
  · show 1 ≤ goMax (goCeil (rpsTarget / calibratedRps n seconds)) 1
    rw [goMax_eq_max]
    exact le_max_right _ 1
  · exact List.length_range _
  · intro hcal ht
    show goMax (goCeil (rpsTarget / calibratedRps n seconds)) 1 = 10
    rw [hcal, ht]
    norm_num [goMax, goCeil]

/-- C4 witness: a calibration unit of 10 requests in 1 second against a
100 rps target yields 10 initial workers. -/
theorem runRPS_initial_worker_count_w :
    initialWorkers 100 10 1 = 10 :=
  (runRPS_initial_worker_count 100 10 1).2.2.2 (by norm_num [calibratedRps]) rfl

/-- C5 counterexample: requests.get called with only a url argument does
not return a response — UnpackArgs reports the required data parameter
missing, and no HTTP request is issued. -/
theorem requests_get_url_only_cex :
    fnRequestsGet (some { userAgent := "hithere/0.0.1" })
        [SValue.str "http://example.com"] [] =
      .error "UnpackArgs: requests.get: missing argument for data" ∧
    requestsIssued (fnRequestsGet (some { userAgent := "hithere/0.0.1" })
        [SValue.str "http://example.com"] []) = 0 :=
  ⟨rfl, rfl⟩

/-- C5 (amended): requests.get declares url, data and headers as required
parameters, so for every url a call with just that argument fails with the
missing-argument error for data and issues no HTTP request. -/
theorem requests_get_requires_all_args (tls : ScriptTls) (u : String) :
    fnRequestsGet (some tls) [SValue.str u] [] =
      .error "UnpackArgs: requests.get: missing argument for data" ∧
    requestsIssued (fnRequestsGet (some tls) [SValue.str u] []) = 0 :=
  ⟨rfl, rfl⟩

/-- C6: the nested form encoder formats composite keys bracket-path style
— a single-entry mapping of a string encodes its key bare, a nested
mapping wraps the inner key in brackets — and on the two test vectors it
produces a=b and card[number]=4242424242424242 exactly. -/
theorem urlencode_bracket_path :
    (∀ k v : String, urlencodeBody (SValue.dict1 k (SValue.str v)) =
      .ok (keyEscape k ++ "=" ++ queryEscape v)) ∧
    (∀ k1 k2 v : String,
      urlencodeBody (SValue.dict1 k1 (SValue.dict1 k2 (SValue.str v))) =
        .ok (keyEscape (k1 ++ "[" ++ k2 ++ "]") ++ "=" ++ queryEscape v)) ∧
    urlencodeBody (SValue.dict1 "a" (SValue.str "b")) = .ok "a=b" ∧
    urlencodeBody (SValue.dict1 "card"
        (SValue.dict1 "number" (SValue.str "4242424242424242"))) =
      .ok "card[number]=4242424242424242" :=
  ⟨fun _ _ => rfl, fun _ _ _ => rfl, rfl, rfl⟩

/-- C7: a response's ok attribute is True exactly when the status code is
under 400, and raise_for_status errors exactly when the status code is 400
or more, returning None otherwise. -/
theorem response_ok_raise_iff (r : Response) :
    (r.okAttr = true ↔ r.statusCode < 400) ∧
    ((∃ e, r.raiseForStatus = .error e) ↔ 400 ≤ r.statusCode) ∧
    (r.statusCode < 400 → r.raiseForStatus = .ok ()) := by
  refine ⟨?_, ?_, ?_⟩
  · unfold Response.okAttr
    split_ifs with h <;> simp [h]
  · unfold Response.raiseForStatus
    split_ifs with h <;> simp [h]
  · intro h
    have hn : ¬ (r.statusCode ≥ 400) := not_le.mpr h
    simp [Response.raiseForStatus, hn]

/-- C7 witness: a 200 response raises nothing. -/
theorem response_ok_raise_iff_w :
    Response.raiseForStatus { statusCode := 200, url := "http://example.com", body := "" }
      = .ok () :=
  (response_ok_raise_iff
    { statusCode := 200, url := "http://example.com", body := "" }).2.2 (by decide)

/-- C8: with the per-invocation thread-local slot absent, requests.get and
requests.post both fail with the top-level error before any argument
handling, and no HTTP request is issued. -/
theorem requests_top_level_error (args : List SValue) (kwargs : List (String × SValue)) :
    fnRequestsGet none args kwargs =
      .error "requests can't be used at top level, only in function bodies" ∧
    requestsIssued (fnRequestsGet none args kwargs) = 0 ∧
    fnRequestsPost none args kwargs =
      .error "requests can't be used at top level, only in function bodies" ∧
    requestsIssued (fnRequestsPost none args kwargs) = 0 :=
  ⟨rfl, rfl, rfl, rfl⟩

/-- C9: in RPS mode, once the initial workers (at least one) have started,
every state the pool can reach before Stop() fires keeps the live worker
count at 1 or more — workers only exit on the broadcast stop or on a
single-worker stop, and nothing ever sends the latter. -/
theorem rps_worker_count_ge_one (n : Int) (s : PoolState) (hn : 1 ≤ n)
    (h : PoolReachable { workerCount := n, stopRequested := false,
                         workerStopPending := 0 } s)
    (hrun : s.stopRequested = false) :
    1 ≤ s.workerCount :=
  le_trans hn ((pool_invariant n s h).2 hrun)

/-- C9 witness: the initial state with one started worker is reachable and
has a worker count of at least 1. -/
theorem rps_worker_count_ge_one_w :
    1 ≤ (PoolState.mk 1 false 0).workerCount :=
  rps_worker_count_ge_one 1 (PoolState.mk 1 false 0) (by decide)
    Relation.ReflTransGen.refl rfl

/-- C10: every call that reaches request construction carries the
configured user agent — the final Header.Set overwrites any user-agent
entry the caller supplied — while a supplied header whose canonical key is
unique among the entries and is neither User-Agent nor Content-Type ends
up in the outgoing request with exactly its given value; the last three
conjuncts tie the final header expression to the GET, raw-body POST and
form-encoded POST paths of request(). -/
theorem requests_user_agent_injected :
    (∀ (urlenc : Bool) (hs : SEntries) (ua : String),
      headerGet (finalHeaders urlenc hs ua) "user-agent" = ua) ∧
    (∀ (urlenc : Bool) (hs : SEntries) (ua : String) (k v : SValue),
      (k, v) ∈ hs.toList →
      (hs.toList.map fun kv =>
        canonicalMIMEHeaderKey (headerKeyOf kv.1)).Pairwise (fun a b => a ≠ b) →
      canonicalMIMEHeaderKey (headerKeyOf k) ≠ "User-Agent" →
      canonicalMIMEHeaderKey (headerKeyOf k) ≠ "Content-Type" →
      headerGet (finalHeaders urlenc hs ua) (headerKeyOf k) = headerValOf v) ∧
    (∀ (tls : ScriptTls) (u : String) (d : SValue) (hs : SEntries),
      fnRequestsGet (some tls) [SValue.str u, d, SValue.dict hs] [] =
        .ok { method := "GET", url := u, body := .noBody,
              headers := finalHeaders false hs tls.userAgent }) ∧
    (∀ (tls : ScriptTls) (u s : String) (hs : SEntries),
      fnRequestsPost (some tls) [SValue.str u, SValue.str s, SValue.dict hs] [] =
        .ok { method := "POST", url := u, body := .rawBody s,
              headers := finalHeaders false hs tls.userAgent }) ∧
    (∀ (tls : ScriptTls) (u : String) (ds hs : SEntries) (bs : String),
      urlencodeBody (SValue.dict ds) = .ok bs →
      fnRequestsPost (some tls) [SValue.str u, SValue.dict ds, SValue.dict hs] [] =
        .ok { method := "POST", url := u, body := .formBody bs,
              headers := finalHeaders true hs tls.userAgent }) := by
  refine ⟨?_, ?_, fun _ _ _ _ => rfl, fun _ _ _ _ => rfl, ?_⟩
  · intro urlenc hs ua
    exact headerGet_headerSet_self _ "user-agent" ua
  · intro urlenc hs ua k v hmem hnodup hua hct
    have hcu : canonicalMIMEHeaderKey "user-agent" = "User-Agent" := by decide
    have hcc : canonicalMIMEHeaderKey "content-type" = "Content-Type" := by decide
    show headerGet (headerSet _ "user-agent" ua) (headerKeyOf k) = headerValOf v
    rw [headerGet_headerSet_ne _ _ _ _ (by rw [hcu]; exact hua)]
    by_cases hc : urlenc = true ∧ headerGet (buildHeaders hs []) "content-type" = ""
    · rw [if_pos hc, headerGet_headerSet_ne _ _ _ _ (by rw [hcc]; exact hct)]
      exact buildHeaders_get_mem hs [] k v hmem hnodup
    · rw [if_neg hc]
      exact buildHeaders_get_mem hs [] k v hmem hnodup
  · intro tls u ds hs bs henc
    unfold fnRequestsPost requestPrepare
    rw [show unpackArgs3 "requests.post" [SValue.str u, SValue.dict ds, SValue.dict hs] [] =
      Except.ok (SValue.str u, SValue.dict ds, SValue.dict hs) from rfl]
    simp only []
    rw [henc]
    rfl

/-- C10 witness: with a headers dict supplying its own user-agent next to
an accept header, the outgoing request carries the configured user agent
and the accept header as given. -/
theorem requests_user_agent_injected_w :
    headerGet (finalHeaders false uaHeadersSample "hithere/0.0.1") "user-agent" =
      "hithere/0.0.1" ∧
    headerGet (finalHeaders false uaHeadersSample "hithere/0.0.1") "accept" =
      "application/json" :=
  ⟨requests_user_agent_injected.1 false uaHeadersSample "hithere/0.0.1",
   requests_user_agent_injected.2.1 false uaHeadersSample "hithere/0.0.1"
     (SValue.str "accept") (SValue.str "application/json")
     (List.Mem.tail _ (List.Mem.head _)) (by decide) (by decide) (by decide)⟩

end Hithere
